import Mathlib

set_option linter.unusedVariables false

/- Shallow embedding of hupmon (src/hupmon.c).

   Bytes are modelled as Nat (the C code reads signed chars; every comparison
   the code performs on a byte is invariant under the signed-to-unsigned
   reinterpretation used here, e.g. the range 0x80..0x9f of ISCONTROL).
   Seconds are modelled as rationals, millisecond poll timeouts as integers,
   and the C cast (int)(...) as truncation toward zero (ctrunc). -/

/- Device control character that resumes transmission (src/hupmon.c line 39). -/
def XON : Nat := 17

/- Device control character that suspends transmission (src/hupmon.c line 45). -/
def XOFF : Nat := 19

/- Escape character (src/hupmon.c line 50). -/
def ESC : Nat := 27

/- Size of the CPR reply buffer (src/hupmon.c line 63). -/
def CPRSIZE : Nat := 10

/- ISCONTROL macro (src/hupmon.c lines 90-91). -/
def ISCONTROL (c : Nat) : Bool :=
  decide (c = 127 ∨ c ≤ 31 ∨ (128 ≤ c ∧ c ≤ 159))

/- ISDIGIT macro (src/hupmon.c line 96). -/
def ISDIGIT (c : Nat) : Bool :=
  decide (48 ≤ c ∧ c ≤ 57)

/- device_state_et (src/hupmon.c lines 130-134). -/
inductive device_state_et
  | DEVICE_STATUS_UNKNOWN
  | DEVICE_OFFLINE
  | DEVICE_ONLINE
deriving DecidableEq

/- flow_control_preprocessor (src/hupmon.c lines 211-226): scans the buffer
   left to right, copying bytes other than XON and XOFF forward in place and
   folding XON and XOFF into the transmit-enable flag. The C version uses an
   in-place cursor; since the cursor never runs ahead of the read index, the
   two-pointer compaction is exactly the recursion below. -/
def flow_control_preprocessor : List Nat → Bool → List Nat × Bool
  | [], txok => ([], txok)
  | b :: rest, txok =>
      if b ≠ XON ∧ b ≠ XOFF then
        let r := flow_control_preprocessor rest txok
        (b :: r.1, r.2)
      else
        flow_control_preprocessor rest (b == XON)

/- A byte that the prober ignores: a non-ESC control byte
   (src/hupmon.c line 346). -/
def ignored (b : Nat) : Bool := (b != ESC) && ISCONTROL b

/- The jump rule of the CPR validator (src/hupmon.c lines 358-362):
   a semicolon at step 3 or 4, or an R at step 7 or 8, skips ahead by
   step % 2 + 1 to compensate for coordinates shorter than three digits. -/
def pingStepJump (step b : Nat) : Nat :=
  if (b = 59 ∧ (step = 3 ∨ step = 4)) ∨ (b = 82 ∧ (step = 7 ∨ step = 8)) then
    step + step % 2 + 1
  else step

/- The per-step validity test of the CPR validator
   (src/hupmon.c lines 364-376). -/
def cprValid (step b : Nat) : Bool :=
  if step = 0 then decide (b = ESC)
  else if step = 1 then decide (b = 91)
  else if step = 2 ∨ step = 3 ∨ step = 4 then ISDIGIT b
  else if step = 5 then decide (b = 59)
  else if step = 6 ∨ step = 7 ∨ step = 8 then ISDIGIT b
  else if step = 9 then decide (b = 82)
  else false

/- Result of a probe: the device state, the reply bytes reported to the
   caller (eom - reply), the total number of bytes appended to the reply
   buffer, the input bytes the probe did not consume (still pending on the
   TTY), and the final deadline. -/
structure PingResult where
  state : device_state_et
  reply : List Nat
  appended : Nat
  rest : List Nat
  deadline : ℚ
deriving DecidableEq

/- The reply-collection loop of ping_tty (src/hupmon.c lines 330-394),
   on the success path of the surrounding syscalls: the input list holds the
   bytes the terminal sends back before the deadline, read one at a time.
   ixoff is the IXOFF bit of the TTY attributes captured before raw mode
   (tty_attr at line 349). Reading any byte sets the state to DEVICE_ONLINE;
   non-ESC control bytes are skipped, an XOFF under IXOFF extending the
   deadline by 0.1 s; other bytes drive the 10-state validator, appending to
   the reply; the loop stops on the first invalid byte, or on accepting R at
   step 9, in which case the reported reply is reset to empty. -/
def pingLoop (ixoff : Bool) : List Nat → Nat → List Nat → device_state_et → ℚ → PingResult
  | [], _, eom, st, dl => ⟨st, eom, eom.length, [], dl⟩
  | b :: rest, step, eom, _, dl =>
      if ignored b = true then
        pingLoop ixoff rest step eom device_state_et.DEVICE_ONLINE
          (if b = XOFF ∧ ixoff = true then dl + 1/10 else dl)
      else
        if cprValid (pingStepJump step b) b = true then
          if pingStepJump step b = 9 then
            ⟨device_state_et.DEVICE_ONLINE, [], eom.length + 1, rest, dl⟩
          else
            pingLoop ixoff rest (pingStepJump step b + 1) (eom ++ [b])
              device_state_et.DEVICE_ONLINE dl
        else ⟨device_state_et.DEVICE_ONLINE, eom ++ [b], eom.length + 1, rest, dl⟩

/- ping_tty (src/hupmon.c lines 288-407) on the path where the raw-mode
   switch and the CPR write succeed: state starts at DEVICE_OFFLINE, the
   validator at step 0 with an empty reply, and the deadline at
   now + cprtimeout with now taken as 0. -/
def ping_tty (ixoff : Bool) (input : List Nat) (cprtimeout : ℚ) : PingResult :=
  pingLoop ixoff input 0 [] device_state_et.DEVICE_OFFLINE cprtimeout

/- The language accepted by the CPR validator from a given step: the list
   of non-ignored bytes that drive the state machine through valid steps
   only and end exactly on the byte accepted at step 9. This is an
   auxiliary acceptor used to characterise when the probe resets its
   reported reply to empty; its soundness proof below ties acceptance back
   to the CPR grammar itself. -/
def cprAccepts : Nat → List Nat → Bool
  | _, [] => false
  | step, b :: rest =>
      if cprValid (pingStepJump step b) b = true then
        if pingStepJump step b = 9 then decide (rest = [])
        else cprAccepts (pingStepJump step b + 1) rest
      else false

/- Truncation toward zero, the semantics of the C cast (int)(double). -/
def ctrunc (q : ℚ) : Int := if 0 ≤ q then ⌊q⌋ else ⌈q⌉

/- Readiness of the child PTY descriptor as poll reports it: the descriptor
   went dead (POLLERR, POLLHUP or POLLNVAL), or it is readable and a read
   would deliver the given bytes (an empty list standing for a read that
   returns zero or fails). -/
inductive ChildIn
  | dead
  | bytes (l : List Nat)
deriving DecidableEq

/- The mutable state of the wrap loop (src/hupmon.c lines 441-458) that the
   claims are about: the transmit-enable flag txok, the activity timeout in
   seconds (negative disables hangup detection), the poll timeout in
   milliseconds, and the revents field of pfds[1] (the child PTY entry).
   The last is genuine loop state in the source: pfds persists across
   iterations, poll overwrites pfds[1].revents only while the entry is
   watched (txok at the time of the call), and line 566 clears it only when
   the child branch actually ran, so a readable indication can survive,
   stale, through iterations entered with txok false. It starts at none,
   the zero of the designated initializer at lines 449-458. -/
structure MState where
  txok : Bool
  timeout : ℚ
  polltimeoutms : Int
  childRevents : Option ChildIn
deriving DecidableEq

/- Input from the terminal in one loop iteration: the descriptor went dead
   (POLLERR, POLLHUP or POLLNVAL), or a read delivered bytes (an empty list
   standing for a read that returned zero or a non-EINTR error). The ixoff
   flag is the IXOFF bit that wrap re-reads with tcgetattr at line 541. -/
inductive TtyIn
  | dead
  | bytes (l : List Nat) (ixoff : Bool)
deriving DecidableEq

/- What poll reported in one iteration of the wrap loop: a timeout, readable
   descriptors, interruption by a signal after the given elapsed seconds, or
   some other poll failure. The child field is what poll writes into
   pfds[1].revents and is consulted only when that entry was watched, that
   is only when txok held when poll was called; otherwise the stale
   childRevents carried in the state is used instead. -/
inductive Ev
  | timeout
  | io (tty : Option TtyIn) (child : Option ChildIn)
  | intr (elapsed : ℚ)
  | pollFail
deriving DecidableEq

/- Observable effects of one iteration of the wrap loop: bytes written to
   the child PTY, bytes written to the TTY, whether SIGHUP was sent to the
   child, whether the prober was invoked (and hence a CPR request written to
   the TTY), whether the child PTY was read, and whether the loop broke. -/
structure IterOut where
  toChild : List Nat
  toTty : List Nat
  sighup : Bool
  probed : Bool
  childRead : Bool
  brk : Bool
deriving DecidableEq

/- An iteration with no observable effects. -/
def noEv : IterOut :=
  { toChild := [], toTty := [], sighup := false, probed := false,
    childRead := false, brk := false }

/- The top-of-loop clamp (src/hupmon.c lines 502-510): with a finite
   timeout, a negative polltimeoutms left over from a previous adjustment is
   clamped to zero before poll is called. -/
def clampPoll (s : MState) : MState :=
  if 0 ≤ s.timeout then { s with polltimeoutms := max s.polltimeoutms 0 } else s

/- Number of descriptors handed to poll (src/hupmon.c line 512):
   pfds[0] is the TTY, pfds[1] the child PTY, and the child PTY is watched
   only while txok holds. -/
def polledFds (s : MState) : Nat := if s.txok = true then 2 else 1

/- Processing of the child PTY after the TTY branch (src/hupmon.c lines
   558-567). s1 is the state after the TTY branch (the txok gate at line
   560 reads the updated flag), toChild the bytes the TTY branch forwarded,
   cr the current value of pfds[1].revents (what poll just wrote when the
   entry was watched, or the stale carried value when it was not). A dead
   descriptor breaks the loop at line 558 regardless of the gate. A
   readable child PTY is read and forwarded to the TTY only when txok holds
   at the gate, an empty read breaking the loop; only this path clears
   revents (line 566), so in every other case cr is carried into the next
   state, stale. -/
def wrapIterChildPart (s1 : MState) (toChild : List Nat) (cr : Option ChildIn) :
    MState × IterOut :=
  match cr with
  | none => ({ s1 with childRevents := none }, { noEv with toChild := toChild })
  | some ChildIn.dead =>
      ({ s1 with childRevents := some ChildIn.dead },
       { noEv with toChild := toChild, brk := true })
  | some (ChildIn.bytes l) =>
      if s1.txok = true then
        if l = [] then
          ({ s1 with childRevents := some (ChildIn.bytes l) },
           { noEv with toChild := toChild, childRead := true, brk := true })
        else
          ({ s1 with childRevents := none },
           { noEv with toChild := toChild, childRead := true, toTty := l })
      else ({ s1 with childRevents := some (ChildIn.bytes l) },
            { noEv with toChild := toChild })

/- One iteration of the wrap main loop (src/hupmon.c lines 501-592), as a
   function of the poll outcome and of the probe result used when the
   iteration times out while txok holds.
   Timeout with txok: run the prober, forward its reported reply bytes to
   the child, and on DEVICE_OFFLINE disarm the timeout and send SIGHUP,
   otherwise re-arm. Timeout without txok: DEVICE_OFFLINE directly, without
   probing (lines 520-527). Readable descriptors: the TTY read is filtered
   through flow_control_preprocessor when IXOFF is set and forwarded to the
   child, re-arming the timeout; then the child PTY part runs on the
   current pfds[1].revents (fresh when the entry was watched, stale
   otherwise). A timeout with the child PTY watched leaves its revents
   zeroed by poll. A signal
   interruption subtracts 1000 * (int)(elapsed seconds) from polltimeoutms
   when the timeout is finite (lines 586-591). Any other poll failure breaks
   the loop. -/
def wrapIter (s0 : MState) (probe : device_state_et × List Nat) (ev : Ev) :
    MState × IterOut :=
  let s := clampPoll s0
  match ev with
  | Ev.timeout =>
      if s.txok = true then
        if probe.1 = device_state_et.DEVICE_OFFLINE then
          ({ s with timeout := -1, polltimeoutms := -1, childRevents := none },
           { toChild := probe.2, toTty := [], sighup := true, probed := true,
             childRead := false, brk := false })
        else
          ({ s with polltimeoutms := ctrunc (1000 * s.timeout), childRevents := none },
           { toChild := probe.2, toTty := [], sighup := false, probed := true,
             childRead := false, brk := false })
      else
        ({ s with timeout := -1, polltimeoutms := -1 },
         { toChild := [], toTty := [], sighup := true, probed := false,
           childRead := false, brk := false })
  | Ev.io tty child =>
      let cr := if s.txok = true then child else s.childRevents
      match tty with
      | some TtyIn.dead => (s, { noEv with brk := true })
      | some (TtyIn.bytes l ix) =>
          if l = [] then (s, { noEv with brk := true })
          else
            let fr := if ix = true then flow_control_preprocessor l s.txok else (l, s.txok)
            let s1 : MState :=
              { txok := fr.2, timeout := s.timeout,
                polltimeoutms :=
                  if 0 ≤ s.timeout then ctrunc (1000 * s.timeout) else s.polltimeoutms,
                childRevents := s.childRevents }
            wrapIterChildPart s1 fr.1 cr
      | none => wrapIterChildPart s [] cr
  | Ev.intr e =>
      (if 0 ≤ s.timeout then { s with polltimeoutms := s.polltimeoutms - 1000 * ctrunc e }
       else s, noEv)
  | Ev.pollFail => (s, { noEv with brk := true })

/- The state of wrap when the loop is first entered (src/hupmon.c lines
   442-447): txok holds and polltimeoutms is (int)(1000 * timeout). -/
def initState (t : ℚ) : MState :=
  { txok := true, timeout := t, polltimeoutms := ctrunc (1000 * t),
    childRevents := none }

/- A run of the wrap loop: each step pairs the probe oracle with the poll
   outcome; the run records each pre-state with the iteration effects and
   stops when an iteration breaks the loop. -/
def wrapTrace (s : MState) :
    List ((device_state_et × List Nat) × Ev) → List (MState × IterOut)
  | [] => []
  | (p, ev) :: rest =>
      let r := wrapIter s p ev
      if r.2.brk = true then [(s, r.2)]
      else (s, r.2) :: wrapTrace r.1 rest

/- A run of the wrap loop recording, for every iteration, the state it was
   entered with, the state it left behind and its effects. -/
def wrapStepsFull (s : MState) :
    List ((device_state_et × List Nat) × Ev) → List (MState × MState × IterOut)
  | [] => []
  | (p, ev) :: rest =>
      let r := wrapIter s p ev
      if r.2.brk = true then [(s, r.1, r.2)]
      else (s, r.1, r.2) :: wrapStepsFull r.1 rest

/- Number of SIGHUPs delivered to the child over a list of iteration
   effects. -/
def sighupCount (outs : List IterOut) : Nat :=
  (outs.filter (fun o => o.sighup)).length

/- Hangup detection has been switched off: both the timeout and the stored
   poll timeout are negative, so poll blocks forever and no iteration can
   time out again. -/
def hupDisarmed (s : MState) : Prop := s.timeout < 0 ∧ s.polltimeoutms < 0

/- A run is valid when poll reports a timeout only if it was called with a
   nonnegative timeout argument (poll blocks indefinitely on a negative
   one). -/
inductive ValidRun : MState → List ((device_state_et × List Nat) × Ev) → Prop
  | nil (s : MState) : ValidRun s []
  | cons (s : MState) (p : device_state_et × List Nat) (ev : Ev)
      (steps : List ((device_state_et × List Nat) × Ev))
      (hev : ev = Ev.timeout → 0 ≤ (clampPoll s).polltimeoutms)
      (hrest : ValidRun (wrapIter s p ev).1 steps) :
      ValidRun s ((p, ev) :: steps)

/- The kept bytes of the filter are exactly the non-XON, non-XOFF bytes, in
   their original relative order. -/
theorem fcp_fst (bytes : List Nat) (txok : Bool) :
    (flow_control_preprocessor bytes txok).1
      = bytes.filter (fun b => decide (b ≠ XON ∧ b ≠ XOFF)) := by
  induction bytes generalizing txok with
  | nil => rfl
  | cons b rest ih =>
      by_cases h : b ≠ XON ∧ b ≠ XOFF
      · simp [flow_control_preprocessor, h, List.filter_cons, ih]
      · simp [flow_control_preprocessor, h, List.filter_cons, ih]

/- The filter never lengthens the buffer. -/
theorem fcp_length (bytes : List Nat) (txok : Bool) :
    (flow_control_preprocessor bytes txok).1.length ≤ bytes.length := by
  rw [fcp_fst]
  exact List.length_filter_le _ _

/- The final transmit-enable flag is decided by the last XON or XOFF byte of
   the buffer, and is the initial flag when there is none. -/
theorem fcp_snd (bytes : List Nat) (txok : Bool) :
    (flow_control_preprocessor bytes txok).2
      = (((bytes.filter (fun b => decide (b = XON ∨ b = XOFF))).getLast?).map
          (fun b => b == XON)).getD txok := by
  induction bytes generalizing txok with
  | nil => rfl
  | cons b rest ih =>
      by_cases h : b = XON ∨ b = XOFF
      · have hne : ¬ (b ≠ XON ∧ b ≠ XOFF) := by tauto
        have hstep : flow_control_preprocessor (b :: rest) txok
            = flow_control_preprocessor rest (b == XON) := by
          simp [flow_control_preprocessor, hne]
        rw [hstep, ih]
        rw [List.filter_cons, if_pos (by simpa using h)]
        cases hfl : rest.filter (fun b => decide (b = XON ∨ b = XOFF)) with
        | nil => simp [hfl]
        | cons y l =>
            have hz : (y :: l).getLast? = some ((y :: l).getLast (by simp)) :=
              List.getLast?_eq_getLast _ (by simp)
            simp [hfl, List.getLast?_cons_cons, hz]
      · have hk : b ≠ XON ∧ b ≠ XOFF := by tauto
        have hstep : (flow_control_preprocessor (b :: rest) txok).2
            = (flow_control_preprocessor rest txok).2 := by
          simp [flow_control_preprocessor, hk]
        rw [hstep, ih]
        rw [List.filter_cons, if_neg (by simpa using h)]

/- On a buffer without flow-control bytes the filter is the identity and
   leaves the flag alone. -/
theorem fcp_noflow (bytes : List Nat) (txok : Bool)
    (h : ∀ b ∈ bytes, b ≠ XON ∧ b ≠ XOFF) :
    flow_control_preprocessor bytes txok = (bytes, txok) := by
  induction bytes with
  | nil => rfl
  | cons b rest ih =>
      have hb := h b (by simp)
      have hr : ∀ x ∈ rest, x ≠ XON ∧ x ≠ XOFF := fun x hx => h x (by simp [hx])
      simp [flow_control_preprocessor, hb, ih hr]

/-- C1: flow_control_preprocessor returns the bytes with every XON (0x11)
and XOFF (0x13) removed in their original order, the new length is at most
the original, the final tx_enabled flag is true after an XON and false
after an XOFF, following the last flow-control byte of the buffer, and the
flag is unchanged when the buffer has no XON or XOFF byte. -/
theorem C1_flow_filter (bytes : List Nat) (txok : Bool) :
    (flow_control_preprocessor bytes txok).1
        = bytes.filter (fun b => decide (b ≠ XON ∧ b ≠ XOFF))
    ∧ (flow_control_preprocessor bytes txok).1.length ≤ bytes.length
    ∧ (flow_control_preprocessor bytes txok).2
        = (((bytes.filter (fun b => decide (b = XON ∨ b = XOFF))).getLast?).map
            (fun b => b == XON)).getD txok
    ∧ ((∀ b ∈ bytes, b ≠ XON ∧ b ≠ XOFF) →
        flow_control_preprocessor bytes txok = (bytes, txok)) :=
  ⟨fcp_fst bytes txok, fcp_length bytes txok, fcp_snd bytes txok,
   fcp_noflow bytes txok⟩

theorem C1_flow_filter_witness :
    (flow_control_preprocessor [72, 19, 105, 17, 33] true).1
        = [72, 19, 105, 17, 33].filter (fun b => decide (b ≠ XON ∧ b ≠ XOFF))
    ∧ (flow_control_preprocessor [72, 19, 105, 17, 33] true).2
        = ((([72, 19, 105, 17, 33].filter
              (fun b => decide (b = XON ∨ b = XOFF))).getLast?).map
            (fun b => b == XON)).getD true
    ∧ flow_control_preprocessor [72, 105] false = ([72, 105], false) :=
  ⟨(C1_flow_filter [72, 19, 105, 17, 33] true).1,
   (C1_flow_filter [72, 19, 105, 17, 33] true).2.2.1,
   (C1_flow_filter [72, 105] false).2.2.2 (by decide)⟩

/-- C10: the flow-control filter is idempotent: its output contains no XON
or XOFF byte, so running it again returns the same bytes and the same
tx_enabled flag. -/
theorem C10_flow_filter_idempotent (bytes : List Nat) (txok : Bool) :
    flow_control_preprocessor (flow_control_preprocessor bytes txok).1
        (flow_control_preprocessor bytes txok).2
      = flow_control_preprocessor bytes txok := by
  have hnf : ∀ b ∈ (flow_control_preprocessor bytes txok).1, b ≠ XON ∧ b ≠ XOFF := by
    intro b hb
    rw [fcp_fst] at hb
    simpa using (List.mem_filter.mp hb).2
  rw [fcp_noflow _ _ hnf]

/- The unfolding of one validator step on the opening ESC byte. -/
theorem pingLoop_head27 {ixoff : Bool} {rest eom : List Nat}
    {st : device_state_et} {dl : ℚ} :
    pingLoop ixoff (ESC :: rest) 0 eom st dl
      = pingLoop ixoff rest 1 (eom ++ [ESC]) device_state_et.DEVICE_ONLINE dl := by
  simp [pingLoop, ignored, ISCONTROL, pingStepJump, cprValid, ESC]

/- The unfolding of one validator step on the opening bracket. -/
theorem pingLoop_head91 {ixoff : Bool} {rest eom : List Nat}
    {st : device_state_et} {dl : ℚ} :
    pingLoop ixoff (91 :: rest) 1 eom st dl
      = pingLoop ixoff rest 2 (eom ++ [91]) device_state_et.DEVICE_ONLINE dl := by
  simp [pingLoop, ignored, ISCONTROL, pingStepJump, cprValid, ESC]

/- The unfolding of one validator step on a digit at any of the digit
   steps 2, 3, 4, 6, 7 and 8. -/
theorem pingLoop_digit {ixoff : Bool} {b : Nat} {rest eom : List Nat}
    {st : device_state_et} {dl : ℚ} {s : Nat}
    (hd : ISDIGIT b = true)
    (hs : s = 2 ∨ s = 3 ∨ s = 4 ∨ s = 6 ∨ s = 7 ∨ s = 8) :
    pingLoop ixoff (b :: rest) s eom st dl
      = pingLoop ixoff rest (s + 1) (eom ++ [b]) device_state_et.DEVICE_ONLINE dl := by
  have hb : 48 ≤ b ∧ b ≤ 57 := by simpa [ISDIGIT] using hd
  have h27 : b ≠ 27 := by omega
  have h59 : b ≠ 59 := by omega
  have h82 : b ≠ 82 := by omega
  have hctl : ISCONTROL b = false := by
    simp only [ISCONTROL, decide_eq_false_iff_not]
    omega
  have hig : ignored b = false := by simp [ignored, hctl]
  have hjump : pingStepJump s b = s := by simp [pingStepJump, h59, h82]
  have hvalid : cprValid s b = true := by
    rcases hs with h | h | h | h | h | h <;> subst h <;> simp [cprValid, hd]
  have h9 : s ≠ 9 := by rcases hs with h | h | h | h | h | h <;> omega
  simp [pingLoop, hig, hjump, hvalid, h9]

/- The unfolding of one validator step on the semicolon: at step 3 or 4 the
   jump rule skips to step 5, at step 5 the byte matches directly; in every
   case the validator continues at step 6. -/
theorem pingLoop_semi {ixoff : Bool} {rest eom : List Nat}
    {st : device_state_et} {dl : ℚ} {s : Nat}
    (hs : s = 3 ∨ s = 4 ∨ s = 5) :
    pingLoop ixoff (59 :: rest) s eom st dl
      = pingLoop ixoff rest 6 (eom ++ [59]) device_state_et.DEVICE_ONLINE dl := by
  rcases hs with h | h | h <;> subst h <;>
    simp [pingLoop, ignored, ISCONTROL, pingStepJump, cprValid, ESC]

/- The unfolding of one validator step on the final R: at step 7 or 8 the
   jump rule skips to step 9, at step 9 the byte matches directly; in every
   case the probe accepts, resetting the reported reply to empty. -/
theorem pingLoop_runR {ixoff : Bool} {rest eom : List Nat}
    {st : device_state_et} {dl : ℚ} {s : Nat}
    (hs : s = 7 ∨ s = 8 ∨ s = 9) :
    pingLoop ixoff (82 :: rest) s eom st dl
      = ⟨device_state_et.DEVICE_ONLINE, [], eom.length + 1, rest, dl⟩ := by
  rcases hs with h | h | h <;> subst h <;>
    simp [pingLoop, ignored, ISCONTROL, pingStepJump, cprValid, ESC]

/- A timed-out iteration forwards exactly the probe reply to the child, so
   an empty reported reply forwards nothing. -/
theorem wrapIter_timeout_toChild (s : MState) (st : device_state_et) :
    (wrapIter s (st, []) Ev.timeout).2.toChild = [] := by
  by_cases ht : (clampPoll s).txok = true
  · by_cases ho : st = device_state_et.DEVICE_OFFLINE <;> simp [wrapIter, ht, ho]
  · simp [wrapIter, ht]

/-- C2: a well-formed CPR reply ESC, bracket, one to three digits,
semicolon, one to three digits, R, delivered within the deadline, makes
ping_tty report DEVICE_ONLINE with a reply length of zero, consuming the
whole reply, so the mediator forwards no bytes to the child; the jump rule
step plus step mod 2 plus 1 takes the semicolon at step 3 or 4 to step 5
and the R at step 7 or 8 to step 9, accepting short coordinates. -/
theorem C2_valid_cpr (ixoff : Bool) (q : ℚ) (r c : List Nat)
    (hr1 : 1 ≤ r.length) (hr3 : r.length ≤ 3)
    (hc1 : 1 ≤ c.length) (hc3 : c.length ≤ 3)
    (hr : ∀ b ∈ r, ISDIGIT b = true) (hc : ∀ b ∈ c, ISDIGIT b = true) :
    (ping_tty ixoff (ESC :: 91 :: (r ++ 59 :: (c ++ [82]))) q).state
        = device_state_et.DEVICE_ONLINE
    ∧ (ping_tty ixoff (ESC :: 91 :: (r ++ 59 :: (c ++ [82]))) q).reply = []
    ∧ (ping_tty ixoff (ESC :: 91 :: (r ++ 59 :: (c ++ [82]))) q).rest = []
    ∧ (ping_tty ixoff (ESC :: 91 :: (r ++ 59 :: (c ++ [82]))) q).deadline = q
    ∧ (∀ s : MState,
        (wrapIter s (device_state_et.DEVICE_ONLINE,
            (ping_tty ixoff (ESC :: 91 :: (r ++ 59 :: (c ++ [82]))) q).reply)
          Ev.timeout).2.toChild = [])
    ∧ pingStepJump 3 59 = 5 ∧ pingStepJump 4 59 = 5
    ∧ pingStepJump 7 82 = 9 ∧ pingStepJump 8 82 = 9 := by
  have key : ∃ n, ping_tty ixoff (ESC :: 91 :: (r ++ 59 :: (c ++ [82]))) q
      = ⟨device_state_et.DEVICE_ONLINE, [], n, [], q⟩ := by
    rcases r with _ | ⟨a1, _ | ⟨a2, _ | ⟨a3, _ | ⟨a4, rt⟩⟩⟩⟩
    · simp only [List.length_nil] at hr1; omega
    all_goals (try (simp only [List.length_cons] at hr3; omega))
    all_goals
      rcases c with _ | ⟨c1, _ | ⟨c2, _ | ⟨c3, _ | ⟨c4, ct⟩⟩⟩⟩
    all_goals (try (simp only [List.length_nil] at hc1; omega))
    all_goals (try (simp only [List.length_cons] at hc3; omega))
    · exact ⟨_, by
        simp only [ping_tty, List.cons_append, List.nil_append]
        rw [pingLoop_head27, pingLoop_head91,
            pingLoop_digit (hr a1 (by simp)) (by omega),
            pingLoop_semi (by omega),
            pingLoop_digit (hc c1 (by simp)) (by omega),
            pingLoop_runR (by omega)]⟩
    · exact ⟨_, by
        simp only [ping_tty, List.cons_append, List.nil_append]
        rw [pingLoop_head27, pingLoop_head91,
            pingLoop_digit (hr a1 (by simp)) (by omega),
            pingLoop_semi (by omega),
            pingLoop_digit (hc c1 (by simp)) (by omega),
            pingLoop_digit (hc c2 (by simp)) (by omega),
            pingLoop_runR (by omega)]⟩
    · exact ⟨_, by
        simp only [ping_tty, List.cons_append, List.nil_append]
        rw [pingLoop_head27, pingLoop_head91,
            pingLoop_digit (hr a1 (by simp)) (by omega),
            pingLoop_semi (by omega),
            pingLoop_digit (hc c1 (by simp)) (by omega),
            pingLoop_digit (hc c2 (by simp)) (by omega),
            pingLoop_digit (hc c3 (by simp)) (by omega),
            pingLoop_runR (by omega)]⟩
    · exact ⟨_, by
        simp only [ping_tty, List.cons_append, List.nil_append]
        rw [pingLoop_head27, pingLoop_head91,
            pingLoop_digit (hr a1 (by simp)) (by omega),
            pingLoop_digit (hr a2 (by simp)) (by omega),
            pingLoop_semi (by omega),
            pingLoop_digit (hc c1 (by simp)) (by omega),
            pingLoop_runR (by omega)]⟩
    · exact ⟨_, by
        simp only [ping_tty, List.cons_append, List.nil_append]
        rw [pingLoop_head27, pingLoop_head91,
            pingLoop_digit (hr a1 (by simp)) (by omega),
            pingLoop_digit (hr a2 (by simp)) (by omega),
            pingLoop_semi (by omega),
            pingLoop_digit (hc c1 (by simp)) (by omega),
            pingLoop_digit (hc c2 (by simp)) (by omega),
            pingLoop_runR (by omega)]⟩
    · exact ⟨_, by
        simp only [ping_tty, List.cons_append, List.nil_append]
        rw [pingLoop_head27, pingLoop_head91,
            pingLoop_digit (hr a1 (by simp)) (by omega),
            pingLoop_digit (hr a2 (by simp)) (by omega),
            pingLoop_semi (by omega),
            pingLoop_digit (hc c1 (by simp)) (by omega),
            pingLoop_digit (hc c2 (by simp)) (by omega),
            pingLoop_digit (hc c3 (by simp)) (by omega),
            pingLoop_runR (by omega)]⟩
    · exact ⟨_, by
        simp only [ping_tty, List.cons_append, List.nil_append]
        rw [pingLoop_head27, pingLoop_head91,
            pingLoop_digit (hr a1 (by simp)) (by omega),
            pingLoop_digit (hr a2 (by simp)) (by omega),
            pingLoop_digit (hr a3 (by simp)) (by omega),
            pingLoop_semi (by omega),
            pingLoop_digit (hc c1 (by simp)) (by omega),
            pingLoop_runR (by omega)]⟩
    · exact ⟨_, by
        simp only [ping_tty, List.cons_append, List.nil_append]
        rw [pingLoop_head27, pingLoop_head91,
            pingLoop_digit (hr a1 (by simp)) (by omega),
            pingLoop_digit (hr a2 (by simp)) (by omega),
            pingLoop_digit (hr a3 (by simp)) (by omega),
            pingLoop_semi (by omega),
            pingLoop_digit (hc c1 (by simp)) (by omega),
            pingLoop_digit (hc c2 (by simp)) (by omega),
            pingLoop_runR (by omega)]⟩
    · exact ⟨_, by
        simp only [ping_tty, List.cons_append, List.nil_append]
        rw [pingLoop_head27, pingLoop_head91,
            pingLoop_digit (hr a1 (by simp)) (by omega),
            pingLoop_digit (hr a2 (by simp)) (by omega),
            pingLoop_digit (hr a3 (by simp)) (by omega),
            pingLoop_semi (by omega),
            pingLoop_digit (hc c1 (by simp)) (by omega),
            pingLoop_digit (hc c2 (by simp)) (by omega),
            pingLoop_digit (hc c3 (by simp)) (by omega),
            pingLoop_runR (by omega)]⟩
  obtain ⟨n, hkey⟩ := key
  refine ⟨by rw [hkey], by rw [hkey], by rw [hkey], by rw [hkey], ?_,
    by decide, by decide, by decide, by decide⟩
  intro s
  rw [hkey]
  exact wrapIter_timeout_toChild s _

theorem C2_valid_cpr_witness :
    (ping_tty false (ESC :: 91 :: ([50] ++ 59 :: ([51, 52] ++ [82]))) 1).state
        = device_state_et.DEVICE_ONLINE
    ∧ (ping_tty false (ESC :: 91 :: ([50] ++ 59 :: ([51, 52] ++ [82]))) 1).reply = []
    ∧ (ping_tty false (ESC :: 91 :: ([50] ++ 59 :: ([51, 52] ++ [82]))) 1).rest = []
    ∧ (wrapIter (initState 1) (device_state_et.DEVICE_ONLINE,
          (ping_tty false (ESC :: 91 :: ([50] ++ 59 :: ([51, 52] ++ [82]))) 1).reply)
        Ev.timeout).2.toChild = [] := by
  have h := C2_valid_cpr false 1 [50] [51, 52] (by decide) (by decide)
    (by decide) (by decide) (by decide) (by decide)
  exact ⟨h.1, h.2.1, h.2.2.1, h.2.2.2.2.1 (initState 1)⟩

/- Once a byte has been read the probe state stays DEVICE_ONLINE to the
   end of the loop. -/
theorem pingLoop_st_online (ixoff : Bool) (input : List Nat) :
    ∀ step eom dl,
      (pingLoop ixoff input step eom device_state_et.DEVICE_ONLINE dl).state
        = device_state_et.DEVICE_ONLINE := by
  induction input with
  | nil => intro step eom dl; rfl
  | cons b rest ih =>
      intro step eom dl
      by_cases hig : ignored b = true
      · rw [show pingLoop ixoff (b :: rest) step eom device_state_et.DEVICE_ONLINE dl
            = pingLoop ixoff rest step eom device_state_et.DEVICE_ONLINE
                (if b = XOFF ∧ ixoff = true then dl + 1/10 else dl) from by
            simp [pingLoop, hig]]
        exact ih _ _ _
      · by_cases hv : cprValid (pingStepJump step b) b = true
        · by_cases h9 : pingStepJump step b = 9
          · have hv9 : cprValid 9 b = true := h9 ▸ hv
            simp [pingLoop, hig, hv, hv9, h9]
          · rw [show pingLoop ixoff (b :: rest) step eom device_state_et.DEVICE_ONLINE dl
                = pingLoop ixoff rest (pingStepJump step b + 1) (eom ++ [b])
                    device_state_et.DEVICE_ONLINE dl from by
                simp [pingLoop, hig, hv, h9]]
            exact ih _ _ _
        · simp [pingLoop, hig, hv]

/- Any nonempty reply, well formed or not, yields DEVICE_ONLINE. -/
theorem ping_tty_online (ixoff : Bool) (input : List Nat) (q : ℚ)
    (h : input ≠ []) :
    (ping_tty ixoff input q).state = device_state_et.DEVICE_ONLINE := by
  cases input with
  | nil => exact absurd rfl h
  | cons b rest =>
      unfold ping_tty
      by_cases hig : ignored b = true
      · rw [show pingLoop ixoff (b :: rest) 0 [] device_state_et.DEVICE_OFFLINE q
            = pingLoop ixoff rest 0 [] device_state_et.DEVICE_ONLINE
                (if b = XOFF ∧ ixoff = true then q + 1/10 else q) from by
            simp [pingLoop, hig]]
        exact pingLoop_st_online ixoff rest 0 [] _
      · by_cases hv : cprValid (pingStepJump 0 b) b = true
        · by_cases h9 : pingStepJump 0 b = 9
          · have hv9 : cprValid 9 b = true := h9 ▸ hv
            simp [pingLoop, hig, hv, hv9, h9]
          · rw [show pingLoop ixoff (b :: rest) 0 [] device_state_et.DEVICE_OFFLINE q
                = pingLoop ixoff rest (pingStepJump 0 b + 1) ([] ++ [b])
                    device_state_et.DEVICE_ONLINE q from by
                simp [pingLoop, hig, hv, h9]]
            exact pingLoop_st_online ixoff rest _ _ _
        · simp [pingLoop, hig, hv]

/- The probe consumes a prefix of the input, leaving the rest on the TTY,
   and the reported reply is exactly the non-ignored bytes of that prefix
   appended to the buffer; the only exception is a fully valid reply, in
   which case the non-ignored consumed bytes are accepted by the validator
   and the reported reply was reset to empty. -/
theorem pingLoop_consumed (ixoff : Bool) (input : List Nat) :
    ∀ step eom st dl, ∃ consumed,
      input = consumed ++ (pingLoop ixoff input step eom st dl).rest ∧
        ((pingLoop ixoff input step eom st dl).reply
            = eom ++ consumed.filter (fun x => !(ignored x))
          ∨ ((pingLoop ixoff input step eom st dl).reply = []
              ∧ cprAccepts step (consumed.filter (fun x => !(ignored x))) = true)) := by
  induction input with
  | nil =>
      intro step eom st dl
      exact ⟨[], by simp [pingLoop], Or.inl (by simp [pingLoop])⟩
  | cons b rest ih =>
      intro step eom st dl
      by_cases hig : ignored b = true
      · have hstep : pingLoop ixoff (b :: rest) step eom st dl
            = pingLoop ixoff rest step eom device_state_et.DEVICE_ONLINE
                (if b = XOFF ∧ ixoff = true then dl + 1/10 else dl) := by
          simp [pingLoop, hig]
        obtain ⟨consumed, h1, h2⟩ := ih step eom device_state_et.DEVICE_ONLINE
          (if b = XOFF ∧ ixoff = true then dl + 1/10 else dl)
        refine ⟨b :: consumed, ?_, ?_⟩
        · rw [hstep, List.cons_append, ← h1]
        · rw [hstep]
          rcases h2 with h2 | h2
          · exact Or.inl (by rw [h2]; simp [List.filter_cons, hig])
          · exact Or.inr ⟨h2.1, by simpa [List.filter_cons, hig] using h2.2⟩
      · by_cases hv : cprValid (pingStepJump step b) b = true
        · by_cases h9 : pingStepJump step b = 9
          · have hv9 : cprValid 9 b = true := h9 ▸ hv
            have hstep : pingLoop ixoff (b :: rest) step eom st dl
                = ⟨device_state_et.DEVICE_ONLINE, [], eom.length + 1, rest, dl⟩ := by
              simp [pingLoop, hig, hv, hv9, h9]
            refine ⟨[b], by rw [hstep]; simp, Or.inr ⟨by rw [hstep], ?_⟩⟩
            simp [cprAccepts, List.filter_cons, hig, h9, hv9]
          · have hstep : pingLoop ixoff (b :: rest) step eom st dl
                = pingLoop ixoff rest (pingStepJump step b + 1) (eom ++ [b])
                    device_state_et.DEVICE_ONLINE dl := by
              simp [pingLoop, hig, hv, h9]
            obtain ⟨consumed, h1, h2⟩ := ih (pingStepJump step b + 1) (eom ++ [b])
              device_state_et.DEVICE_ONLINE dl
            refine ⟨b :: consumed, ?_, ?_⟩
            · rw [hstep, List.cons_append, ← h1]
            · rw [hstep]
              rcases h2 with h2 | h2
              · exact Or.inl (by rw [h2]; simp [List.filter_cons, hig])
              · refine Or.inr ⟨h2.1, ?_⟩
                simp only [List.filter_cons, hig]
                simp only [cprAccepts, Bool.not_true, Bool.not_false]
                simp [cprAccepts, hv, h9]
                exact h2.2
        · have hstep : pingLoop ixoff (b :: rest) step eom st dl
              = ⟨device_state_et.DEVICE_ONLINE, eom ++ [b], eom.length + 1, rest, dl⟩ := by
            simp [pingLoop, hig, hv]
          refine ⟨[b], by rw [hstep]; simp, Or.inl ?_⟩
          rw [hstep]
          simp [List.filter_cons, hig]

/- A first byte that is neither ESC nor an ignored control byte fails the
   validator at step 0: the probe stops at once, reporting that byte as the
   reply and leaving the remaining input on the TTY. -/
theorem ping_tty_first_invalid (ixoff : Bool) (b : Nat) (rest : List Nat) (q : ℚ)
    (h27 : b ≠ ESC) (hctl : ISCONTROL b = false) :
    ping_tty ixoff (b :: rest) q
      = ⟨device_state_et.DEVICE_ONLINE, [b], 1, rest, q⟩ := by
  have hig : ignored b = false := by simp [ignored, hctl]
  have hjump : pingStepJump 0 b = 0 := by simp [pingStepJump]
  have hv : cprValid 0 b = false := by simp [cprValid, h27]
  simp [ping_tty, pingLoop, hig, hjump, hv]

/- Soundness of the acceptor for the column half: from step 6 it accepts
   exactly one to three digits followed by R. -/
theorem cprAccepts_col {l : List Nat} (h : cprAccepts 6 l = true) :
    ∃ c, (∀ b ∈ c, ISDIGIT b = true) ∧ 1 ≤ c.length ∧ c.length ≤ 3
      ∧ l = c ++ [82] := by
  cases l with
  | nil => simp [cprAccepts] at h
  | cons b1 l1 =>
      rw [show cprAccepts 6 (b1 :: l1)
          = (if ISDIGIT b1 = true then cprAccepts 7 l1 else false) from by
        simp [cprAccepts, pingStepJump, cprValid]] at h
      by_cases hd1 : ISDIGIT b1 = true
      · rw [if_pos hd1] at h
        cases l1 with
        | nil => simp [cprAccepts] at h
        | cons b2 l2 =>
            by_cases h82 : b2 = 82
            · subst h82
              rw [show cprAccepts 7 (82 :: l2) = decide (l2 = []) from by
                simp [cprAccepts, pingStepJump, cprValid]] at h
              have hl2 : l2 = [] := by simpa using h
              subst hl2
              exact ⟨[b1], by simp [hd1], by simp, by simp, rfl⟩
            · rw [show cprAccepts 7 (b2 :: l2)
                  = (if ISDIGIT b2 = true then cprAccepts 8 l2 else false) from by
                simp [cprAccepts, pingStepJump, cprValid, h82]] at h
              by_cases hd2 : ISDIGIT b2 = true
              · rw [if_pos hd2] at h
                cases l2 with
                | nil => simp [cprAccepts] at h
                | cons b3 l3 =>
                    by_cases h82b : b3 = 82
                    · subst h82b
                      rw [show cprAccepts 8 (82 :: l3) = decide (l3 = []) from by
                        simp [cprAccepts, pingStepJump, cprValid]] at h
                      have hl3 : l3 = [] := by simpa using h
                      subst hl3
                      exact ⟨[b1, b2], by simp [hd1, hd2], by simp, by simp, rfl⟩
                    · rw [show cprAccepts 8 (b3 :: l3)
                          = (if ISDIGIT b3 = true then cprAccepts 9 l3 else false) from by
                        simp [cprAccepts, pingStepJump, cprValid, h82b]] at h
                      by_cases hd3 : ISDIGIT b3 = true
                      · rw [if_pos hd3] at h
                        cases l3 with
                        | nil => simp [cprAccepts] at h
                        | cons b4 l4 =>
                            rw [show cprAccepts 9 (b4 :: l4)
                                = (if b4 = 82 then decide (l4 = []) else false) from by
                              simp [cprAccepts, pingStepJump, cprValid]] at h
                            by_cases h84 : b4 = 82
                            · subst h84
                              rw [if_pos rfl] at h
                              have hl4 : l4 = [] := by simpa using h
                              subst hl4
                              exact ⟨[b1, b2, b3], by simp [hd1, hd2, hd3],
                                by simp, by simp, rfl⟩
                            · rw [if_neg h84] at h
                              exact absurd h (by simp)
                      · rw [if_neg hd3] at h
                        exact absurd h (by simp)
              · rw [if_neg hd2] at h
                exact absurd h (by simp)
      · rw [if_neg hd1] at h
        exact absurd h (by simp)

/- Soundness of the acceptor for the row half: from step 2 it accepts
   exactly one to three digits, a semicolon, and then the column half from
   step 6. -/
theorem cprAccepts_row {l : List Nat} (h : cprAccepts 2 l = true) :
    ∃ r l2, (∀ b ∈ r, ISDIGIT b = true) ∧ 1 ≤ r.length ∧ r.length ≤ 3
      ∧ l = r ++ 59 :: l2 ∧ cprAccepts 6 l2 = true := by
  cases l with
  | nil => simp [cprAccepts] at h
  | cons b1 l1 =>
      rw [show cprAccepts 2 (b1 :: l1)
          = (if ISDIGIT b1 = true then cprAccepts 3 l1 else false) from by
        simp [cprAccepts, pingStepJump, cprValid]] at h
      by_cases hd1 : ISDIGIT b1 = true
      · rw [if_pos hd1] at h
        cases l1 with
        | nil => simp [cprAccepts] at h
        | cons b2 l2 =>
            by_cases h59 : b2 = 59
            · subst h59
              rw [show cprAccepts 3 (59 :: l2) = cprAccepts 6 l2 from by
                simp [cprAccepts, pingStepJump, cprValid]] at h
              exact ⟨[b1], l2, by simp [hd1], by simp, by simp, rfl, h⟩
            · rw [show cprAccepts 3 (b2 :: l2)
                  = (if ISDIGIT b2 = true then cprAccepts 4 l2 else false) from by
                simp [cprAccepts, pingStepJump, cprValid, h59]] at h
              by_cases hd2 : ISDIGIT b2 = true
              · rw [if_pos hd2] at h
                cases l2 with
                | nil => simp [cprAccepts] at h
                | cons b3 l3 =>
                    by_cases h59b : b3 = 59
                    · subst h59b
                      rw [show cprAccepts 4 (59 :: l3) = cprAccepts 6 l3 from by
                        simp [cprAccepts, pingStepJump, cprValid]] at h
                      exact ⟨[b1, b2], l3, by simp [hd1, hd2], by simp, by simp,
                        rfl, h⟩
                    · rw [show cprAccepts 4 (b3 :: l3)
                          = (if ISDIGIT b3 = true then cprAccepts 5 l3 else false) from by
                        simp [cprAccepts, pingStepJump, cprValid, h59b]] at h
                      by_cases hd3 : ISDIGIT b3 = true
                      · rw [if_pos hd3] at h
                        cases l3 with
                        | nil => simp [cprAccepts] at h
                        | cons b4 l4 =>
                            by_cases h59c : b4 = 59
                            · subst h59c
                              rw [show cprAccepts 5 (59 :: l4) = cprAccepts 6 l4 from by
                                simp [cprAccepts, pingStepJump, cprValid]] at h
                              exact ⟨[b1, b2, b3], l4, by simp [hd1, hd2, hd3],
                                by simp, by simp, rfl, h⟩
                            · rw [show cprAccepts 5 (b4 :: l4) = false from by
                                simp [cprAccepts, pingStepJump, cprValid, h59c]] at h
                              exact absurd h (by simp)
                      · rw [if_neg hd3] at h
                        exact absurd h (by simp)
              · rw [if_neg hd2] at h
                exact absurd h (by simp)
      · rw [if_neg hd1] at h
        exact absurd h (by simp)

/- Soundness of the acceptor from the initial step: every accepted byte
   list is a complete CPR reply of the grammar ESC, bracket, one to three
   digits, semicolon, one to three digits, R. -/
theorem cprAccepts_sound {l : List Nat} (h : cprAccepts 0 l = true) :
    ∃ r c, (∀ b ∈ r, ISDIGIT b = true) ∧ 1 ≤ r.length ∧ r.length ≤ 3
      ∧ (∀ b ∈ c, ISDIGIT b = true) ∧ 1 ≤ c.length ∧ c.length ≤ 3
      ∧ l = ESC :: 91 :: (r ++ 59 :: (c ++ [82])) := by
  cases l with
  | nil => simp [cprAccepts] at h
  | cons b1 l1 =>
      by_cases h27 : b1 = 27
      · subst h27
        rw [show cprAccepts 0 (27 :: l1) = cprAccepts 1 l1 from by
          simp [cprAccepts, pingStepJump, cprValid, ESC]] at h
        cases l1 with
        | nil => simp [cprAccepts] at h
        | cons b2 l2 =>
            by_cases h91 : b2 = 91
            · subst h91
              rw [show cprAccepts 1 (91 :: l2) = cprAccepts 2 l2 from by
                simp [cprAccepts, pingStepJump, cprValid]] at h
              obtain ⟨r, l3, hrd, hr1, hr3, hshape, hacc6⟩ := cprAccepts_row h
              obtain ⟨c, hcd, hc1, hc3, hcshape⟩ := cprAccepts_col hacc6
              refine ⟨r, c, hrd, hr1, hr3, hcd, hc1, hc3, ?_⟩
              rw [hshape, hcshape]
              rfl
            · rw [show cprAccepts 1 (b2 :: l2) = false from by
                simp [cprAccepts, pingStepJump, cprValid, h91]] at h
              exact absurd h (by simp)
      · rw [show cprAccepts 0 (b1 :: l1) = false from by
          simp [cprAccepts, pingStepJump, cprValid, ESC, h27]] at h
        exact absurd h (by simp)

/-- C3: any nonempty probe reply makes ping_tty report DEVICE_ONLINE, and
the reported reply is exactly the non-ignored bytes of the consumed prefix,
with one exception only: when those bytes form a grammatically complete CPR
reply (ESC, bracket, one to three digits, semicolon, one to three digits,
R) the reported reply was reset to empty. Hence every reply whose first
non-ignored byte is not ESC, or that deviates from the CPR grammar at any
later byte, has the bytes seen so far forwarded to the child. A first byte
that is neither ESC nor an ignored control is reported alone with the
remaining input left on the TTY; in particular a terminal answering with
the two bytes of the word hi gets h reported by the probe and i left over,
and the mediator forwards exactly those two bytes to the child, in
order. -/
theorem C3_malformed_reply (ixoff : Bool) (input : List Nat) (q : ℚ)
    (hne : input ≠ []) :
    (ping_tty ixoff input q).state = device_state_et.DEVICE_ONLINE
    ∧ (∃ consumed, input = consumed ++ (ping_tty ixoff input q).rest ∧
        ((ping_tty ixoff input q).reply = consumed.filter (fun x => !(ignored x))
          ∨ ((ping_tty ixoff input q).reply = []
              ∧ ∃ r c, (∀ b ∈ r, ISDIGIT b = true) ∧ 1 ≤ r.length ∧ r.length ≤ 3
                  ∧ (∀ b ∈ c, ISDIGIT b = true) ∧ 1 ≤ c.length ∧ c.length ≤ 3
                  ∧ consumed.filter (fun x => !(ignored x))
                      = ESC :: 91 :: (r ++ 59 :: (c ++ [82])))))
    ∧ (∀ b rest, b ≠ ESC → ISCONTROL b = false →
        ping_tty ixoff (b :: rest) q
          = ⟨device_state_et.DEVICE_ONLINE, [b], 1, rest, q⟩)
    ∧ ping_tty false [104, 105] 1
        = ⟨device_state_et.DEVICE_ONLINE, [104], 1, [105], 1⟩
    ∧ ((wrapTrace (initState 1)
          [((device_state_et.DEVICE_ONLINE, (ping_tty false [104, 105] 1).reply),
            Ev.timeout),
           ((device_state_et.DEVICE_ONLINE, []),
            Ev.io (some (TtyIn.bytes (ping_tty false [104, 105] 1).rest false)) none)]).map
          (fun x => x.2.toChild)).flatten = [104, 105] := by
  have hhi : ping_tty false [104, 105] 1
      = ⟨device_state_et.DEVICE_ONLINE, [104], 1, [105], 1⟩ :=
    ping_tty_first_invalid false 104 [105] 1 (by decide) (by decide)
  refine ⟨ping_tty_online ixoff input q hne, ?_, ?_, hhi, ?_⟩
  · obtain ⟨consumed, h1, h2⟩ := pingLoop_consumed ixoff input 0 []
      device_state_et.DEVICE_OFFLINE q
    refine ⟨consumed, h1, ?_⟩
    rcases h2 with h2 | ⟨h2a, h2b⟩
    · exact Or.inl (by simpa [ping_tty] using h2)
    · exact Or.inr ⟨by simpa [ping_tty] using h2a, cprAccepts_sound h2b⟩
  · intro b rest h27 hctl
    exact ping_tty_first_invalid ixoff b rest q h27 hctl
  · rw [hhi]
    have hoo : device_state_et.DEVICE_ONLINE ≠ device_state_et.DEVICE_OFFLINE := by
      decide
    norm_num [wrapTrace, wrapIter, wrapIterChildPart, clampPoll, initState,
      flow_control_preprocessor, noEv, hoo]

theorem C3_malformed_reply_witness :
    (ping_tty false [104, 105] 1).state = device_state_et.DEVICE_ONLINE
    ∧ ping_tty false [104, 105] 1
        = ⟨device_state_et.DEVICE_ONLINE, [104], 1, [105], 1⟩ :=
  ⟨(C3_malformed_reply false [104, 105] 1 (by decide)).1,
   (C3_malformed_reply false [104, 105] 1 (by decide)).2.2.2.1⟩

/-- C8: during a probe with IXOFF set in the captured TTY attributes, an
XOFF byte extends the deadline by exactly one tenth of a second and is
otherwise invisible: it is not appended to the reply and the validator step
is unchanged. -/
theorem C8_xoff_extends_deadline (rest eom : List Nat) (step : Nat)
    (st : device_state_et) (dl : ℚ) :
    pingLoop true (XOFF :: rest) step eom st dl
      = pingLoop true rest step eom device_state_et.DEVICE_ONLINE (dl + 1/10) := by
  simp [pingLoop, ignored, ISCONTROL, XOFF, ESC]

/- A valid step of the validator only exists for steps 0 through 9. -/
theorem cprValid_le {s b : Nat} (h : cprValid s b = true) : s ≤ 9 := by
  rcases le_or_lt s 9 with h9 | h9
  · exact h9
  · have h0 : s ≠ 0 := by omega
    have h1 : s ≠ 1 := by omega
    have h2 : s ≠ 2 := by omega
    have h3 : s ≠ 3 := by omega
    have h4 : s ≠ 4 := by omega
    have h5 : s ≠ 5 := by omega
    have h6 : s ≠ 6 := by omega
    have h7 : s ≠ 7 := by omega
    have h8 : s ≠ 8 := by omega
    have hn9 : s ≠ 9 := by omega
    simp [cprValid, h0, h1, h2, h3, h4, h5, h6, h7, h8, hn9] at h

/- The jump rule never moves the validator backwards. -/
theorem pingStepJump_ge (s b : Nat) : s ≤ pingStepJump s b := by
  unfold pingStepJump
  split <;> omega

/- Invariant of the reply loop: while the buffer holds at most step bytes
   and the step is at most 9, the loop appends at most 10 bytes in total and
   reports at most 10. -/
theorem pingLoop_appended_le (ixoff : Bool) (input : List Nat) :
    ∀ step eom st dl, eom.length ≤ step → step ≤ 9 →
      (pingLoop ixoff input step eom st dl).appended ≤ 10 ∧
      (pingLoop ixoff input step eom st dl).reply.length ≤ 10 := by
  induction input with
  | nil =>
      intro step eom st dl h1 h2
      constructor <;> simp [pingLoop] <;> omega
  | cons b rest ih =>
      intro step eom st dl h1 h2
      by_cases hig : ignored b = true
      · rw [show pingLoop ixoff (b :: rest) step eom st dl
            = pingLoop ixoff rest step eom device_state_et.DEVICE_ONLINE
                (if b = XOFF ∧ ixoff = true then dl + 1/10 else dl) from by
            simp [pingLoop, hig]]
        exact ih _ _ _ _ h1 h2
      · by_cases hv : cprValid (pingStepJump step b) b = true
        · by_cases h9 : pingStepJump step b = 9
          · have hv9 : cprValid 9 b = true := h9 ▸ hv
            rw [show pingLoop ixoff (b :: rest) step eom st dl
                = ⟨device_state_et.DEVICE_ONLINE, [], eom.length + 1, rest, dl⟩ from by
                simp [pingLoop, hig, hv, hv9, h9]]
            constructor <;> simp <;> omega
          · rw [show pingLoop ixoff (b :: rest) step eom st dl
                = pingLoop ixoff rest (pingStepJump step b + 1) (eom ++ [b])
                    device_state_et.DEVICE_ONLINE dl from by
                simp [pingLoop, hig, hv, h9]]
            have hge := pingStepJump_ge step b
            have hle := cprValid_le hv
            exact ih _ _ _ _ (by simp; omega) (by omega)
        · rw [show pingLoop ixoff (b :: rest) step eom st dl
              = ⟨device_state_et.DEVICE_ONLINE, eom ++ [b], eom.length + 1, rest, dl⟩ from by
              simp [pingLoop, hig, hv]]
          constructor <;> simp <;> omega

/-- C9: for every input byte sequence and deadline, ping_tty appends at most
CPRSIZE (10) bytes to the reply buffer and reports a reply of at most 10
bytes, so a 10-byte buffer is never overrun. -/
theorem C9_reply_buffer_bound (ixoff : Bool) (input : List Nat) (q : ℚ) :
    (ping_tty ixoff input q).appended ≤ CPRSIZE ∧
    (ping_tty ixoff input q).reply.length ≤ CPRSIZE :=
  pingLoop_appended_le ixoff input 0 [] device_state_et.DEVICE_OFFLINE q
    (by simp) (by omega)

/- The top-of-loop clamp does not touch the transmit flag. -/
theorem clampPoll_txok (s : MState) : (clampPoll s).txok = s.txok := by
  unfold clampPoll
  split <;> rfl

/- The top-of-loop clamp does not touch the timeout. -/
theorem clampPoll_timeout (s : MState) : (clampPoll s).timeout = s.timeout := by
  unfold clampPoll
  split <;> rfl

/- The top-of-loop clamp does not touch the carried child revents. -/
theorem clampPoll_childRevents (s : MState) :
    (clampPoll s).childRevents = s.childRevents := by
  unfold clampPoll
  split <;> rfl

/- With hangup detection disabled the clamp is the identity. -/
theorem clampPoll_neg {s : MState} (h : s.timeout < 0) : clampPoll s = s := by
  unfold clampPoll
  rw [if_neg (not_le.mpr h)]

/- The child-PTY part never sends SIGHUP. -/
theorem wrapIterChildPart_sighup (s1 : MState) (tc : List Nat)
    (cr : Option ChildIn) :
    (wrapIterChildPart s1 tc cr).2.sighup = false := by
  unfold wrapIterChildPart
  cases cr with
  | none => rfl
  | some c =>
      cases c with
      | dead => rfl
      | bytes l =>
          by_cases h1 : s1.txok = true
          · by_cases hl : l = [] <;> simp [h1, hl, noEv]
          · simp [h1, noEv]

/- The child-PTY part changes at most the carried child revents of the
   state the TTY part produced: timeout and poll timeout are untouched. -/
theorem wrapIterChildPart_keep (s1 : MState) (tc : List Nat)
    (cr : Option ChildIn) :
    (wrapIterChildPart s1 tc cr).1.timeout = s1.timeout
    ∧ (wrapIterChildPart s1 tc cr).1.polltimeoutms = s1.polltimeoutms := by
  unfold wrapIterChildPart
  cases cr with
  | none => exact ⟨rfl, rfl⟩
  | some c =>
      cases c with
      | dead => exact ⟨rfl, rfl⟩
      | bytes l =>
          by_cases h1 : s1.txok = true
          · by_cases hl : l = [] <;> simp [h1, hl]
          · simp [h1]

/- The child-PTY part does not change the transmit flag. -/
theorem wrapIterChildPart_txok (s1 : MState) (tc : List Nat)
    (cr : Option ChildIn) :
    (wrapIterChildPart s1 tc cr).1.txok = s1.txok := by
  unfold wrapIterChildPart
  cases cr with
  | none => rfl
  | some c =>
      cases c with
      | dead => rfl
      | bytes l =>
          by_cases h1 : s1.txok = true
          · by_cases hl : l = [] <;> simp [h1, hl]
          · simp [h1]

/- The gate at src/hupmon.c line 560: the child PTY is read, or bytes are
   written to the TTY, only when the transmit flag holds at the gate. -/
theorem wrapIterChildPart_gate (s1 : MState) (tc : List Nat)
    (cr : Option ChildIn)
    (h : (wrapIterChildPart s1 tc cr).2.childRead = true
        ∨ (wrapIterChildPart s1 tc cr).2.toTty ≠ []) :
    s1.txok = true := by
  cases cr with
  | none => exact absurd h (by simp [wrapIterChildPart, noEv])
  | some c =>
      cases c with
      | dead => exact absurd h (by simp [wrapIterChildPart, noEv])
      | bytes l =>
          by_cases h1 : s1.txok = true
          · exact h1
          · exact absurd h (by simp [wrapIterChildPart, h1, noEv])

/- Every iteration dispatching readable descriptors either breaks in the
   TTY branch, quietly, or ends as the child-PTY part applied to a state
   whose timeout is unchanged and whose poll timeout is unchanged when
   hangup detection is disabled. -/
theorem wrapIter_io_shape (s : MState) (p : device_state_et × List Nat)
    (tty : Option TtyIn) (child : Option ChildIn) :
    ((wrapIter s p (Ev.io tty child)).1 = clampPoll s
      ∧ (wrapIter s p (Ev.io tty child)).2.childRead = false
      ∧ (wrapIter s p (Ev.io tty child)).2.toTty = []
      ∧ (wrapIter s p (Ev.io tty child)).2.sighup = false)
    ∨ (∃ s1 tc cr, wrapIter s p (Ev.io tty child) = wrapIterChildPart s1 tc cr
        ∧ s1.timeout = s.timeout
        ∧ (s.timeout < 0 → s1.polltimeoutms = s.polltimeoutms)) := by
  cases tty with
  | none =>
      right
      refine ⟨clampPoll s, [],
        (if (clampPoll s).txok = true then child else (clampPoll s).childRevents),
        by simp [wrapIter], clampPoll_timeout s, ?_⟩
      intro h
      rw [clampPoll_neg h]
  | some t =>
      cases t with
      | dead =>
          left
          refine ⟨rfl, ?_, ?_, ?_⟩ <;> simp [wrapIter, noEv]
      | bytes l ix =>
          by_cases hl : l = []
          · left
            refine ⟨?_, ?_, ?_, ?_⟩ <;> simp [wrapIter, hl, noEv]
          · right
            refine ⟨{ txok := (if ix = true then flow_control_preprocessor l (clampPoll s).txok
                        else (l, (clampPoll s).txok)).2,
                      timeout := (clampPoll s).timeout,
                      polltimeoutms := if 0 ≤ (clampPoll s).timeout
                        then ctrunc (1000 * (clampPoll s).timeout)
                        else (clampPoll s).polltimeoutms,
                      childRevents := (clampPoll s).childRevents },
                    (if ix = true then flow_control_preprocessor l (clampPoll s).txok
                      else (l, (clampPoll s).txok)).1,
                    (if (clampPoll s).txok = true then child else (clampPoll s).childRevents),
                    by simp [wrapIter, hl], clampPoll_timeout s, ?_⟩
            intro h
            have hcp : clampPoll s = s := clampPoll_neg h
            show (if 0 ≤ (clampPoll s).timeout
                then ctrunc (1000 * (clampPoll s).timeout)
                else (clampPoll s).polltimeoutms) = s.polltimeoutms
            rw [hcp, if_neg (not_le.mpr h)]

/- An iteration dispatching readable descriptors never sends SIGHUP. -/
theorem wrapIter_io_sighup (s : MState) (p : device_state_et × List Nat)
    (tty : Option TtyIn) (child : Option ChildIn) :
    (wrapIter s p (Ev.io tty child)).2.sighup = false := by
  rcases wrapIter_io_shape s p tty child with ⟨_, _, _, hsh⟩ | ⟨s1, tc, cr, heq, _, _⟩
  · exact hsh
  · rw [heq]
    exact wrapIterChildPart_sighup s1 tc cr

/- A signal-interrupted iteration never sends SIGHUP. -/
theorem wrapIter_intr_sighup (s : MState) (p : device_state_et × List Nat)
    (e : ℚ) : (wrapIter s p (Ev.intr e)).2.sighup = false := by
  simp [wrapIter, noEv]

/- A failed poll breaks the loop without sending SIGHUP. -/
theorem wrapIter_pollFail_sighup (s : MState) (p : device_state_et × List Nat) :
    (wrapIter s p Ev.pollFail).2.sighup = false := by
  simp [wrapIter, noEv]

/- Only a timed-out iteration can send SIGHUP. -/
theorem wrapIter_sighup_timeout (s : MState) (p : device_state_et × List Nat)
    (ev : Ev) (h : (wrapIter s p ev).2.sighup = true) : ev = Ev.timeout := by
  cases ev with
  | timeout => rfl
  | io tty child => exact absurd h (by simp [wrapIter_io_sighup])
  | intr e => exact absurd h (by simp [wrapIter_intr_sighup])
  | pollFail => exact absurd h (by simp [wrapIter_pollFail_sighup])

/- A timed-out iteration that sends SIGHUP leaves the timeouts disarmed. -/
theorem wrapIter_timeout_disarm (s : MState) (p : device_state_et × List Nat)
    (h : (wrapIter s p Ev.timeout).2.sighup = true) :
    hupDisarmed (wrapIter s p Ev.timeout).1 := by
  by_cases ht : (clampPoll s).txok = true
  · by_cases ho : p.1 = device_state_et.DEVICE_OFFLINE
    · rw [show (wrapIter s p Ev.timeout).1
          = { clampPoll s with timeout := -1, polltimeoutms := -1, childRevents := none } from by
          simp [wrapIter, ht, ho]]
      exact ⟨by norm_num, by norm_num⟩
    · rw [show (wrapIter s p Ev.timeout).2.sighup = false from by
          simp [wrapIter, ht, ho]] at h
      exact absurd h (by simp)
  · rw [show (wrapIter s p Ev.timeout).1
        = { clampPoll s with timeout := -1, polltimeoutms := -1 } from by
        simp [wrapIter, ht]]
    exact ⟨by norm_num, by norm_num⟩

/- A timed-out iteration whose probe reports DEVICE_OFFLINE sends SIGHUP
   and disarms the timeouts (also when txok was false and the probe was
   skipped). -/
theorem wrapIter_offline_sighup (s : MState) (p : device_state_et × List Nat)
    (hp : p.1 = device_state_et.DEVICE_OFFLINE) :
    (wrapIter s p Ev.timeout).2.sighup = true
    ∧ hupDisarmed (wrapIter s p Ev.timeout).1 := by
  by_cases ht : (clampPoll s).txok = true
  · refine ⟨by simp [wrapIter, ht, hp], ?_⟩
    rw [show (wrapIter s p Ev.timeout).1
        = { clampPoll s with timeout := -1, polltimeoutms := -1, childRevents := none } from by
        simp [wrapIter, ht, hp]]
    exact ⟨by norm_num, by norm_num⟩
  · refine ⟨by simp [wrapIter, ht], ?_⟩
    rw [show (wrapIter s p Ev.timeout).1
        = { clampPoll s with timeout := -1, polltimeoutms := -1 } from by
        simp [wrapIter, ht]]
    exact ⟨by norm_num, by norm_num⟩

/- Once the timeouts are disarmed, any iteration other than a timeout keeps
   them disarmed. -/
theorem wrapIter_disarm_preserved (s : MState) (p : device_state_et × List Nat)
    (ev : Ev) (hd : hupDisarmed s) (hev : ev ≠ Ev.timeout) :
    hupDisarmed (wrapIter s p ev).1 := by
  have hcp : clampPoll s = s := clampPoll_neg hd.1
  have hnt : ¬ 0 ≤ s.timeout := not_le.mpr hd.1
  cases ev with
  | timeout => exact absurd rfl hev
  | io tty child =>
      rcases wrapIter_io_shape s p tty child with ⟨hpost, _, _, _⟩ | ⟨s1, tc, cr, heq, ht, hp⟩
      · rw [hpost, hcp]
        exact hd
      · rw [heq]
        refine ⟨?_, ?_⟩
        · rw [(wrapIterChildPart_keep s1 tc cr).1, ht]
          exact hd.1
        · rw [(wrapIterChildPart_keep s1 tc cr).2, hp hd.1]
          exact hd.2
  | intr e =>
      rw [show (wrapIter s p (Ev.intr e)).1 = s from by simp [wrapIter, hcp, hnt]]
      exact hd
  | pollFail =>
      rw [show (wrapIter s p Ev.pollFail).1 = s from by simp [wrapIter, hcp]]
      exact hd

/- Counting SIGHUPs distributes over the head of a list of effects. -/
theorem sighupCount_cons (o : IterOut) (outs : List IterOut) :
    sighupCount (o :: outs)
      = (if o.sighup = true then 1 else 0) + sighupCount outs := by
  by_cases h : o.sighup = true <;>
    simp [sighupCount, List.filter_cons, h] <;> omega

/- Timed-out, interrupted and failed iterations never read the child PTY
   and never write bytes to the TTY. -/
theorem wrapIter_nonio_quiet (s : MState) (p : device_state_et × List Nat)
    (ev : Ev) (hev : ∀ tty child, ev ≠ Ev.io tty child) :
    (wrapIter s p ev).2.childRead = false ∧ (wrapIter s p ev).2.toTty = [] := by
  cases ev with
  | timeout =>
      by_cases ht : (clampPoll s).txok = true
      · by_cases ho : p.1 = device_state_et.DEVICE_OFFLINE <;> simp [wrapIter, ht, ho]
      · simp [wrapIter, ht]
  | io tty child => exact absurd rfl (hev tty child)
  | intr e => simp [wrapIter, noEv]
  | pollFail => simp [wrapIter, noEv]

/- The gate of the child branch, lifted to a whole iteration: whenever an
   iteration reads the child PTY or writes bytes to the TTY, the transmit
   flag held at the gate, and the gate value is the one the iteration
   leaves behind, so the flag is true in the resulting state. -/
theorem wrapIter_gate (s : MState) (p : device_state_et × List Nat) (ev : Ev)
    (h : (wrapIter s p ev).2.childRead = true ∨ (wrapIter s p ev).2.toTty ≠ []) :
    (wrapIter s p ev).1.txok = true := by
  cases ev with
  | timeout =>
      have hq := wrapIter_nonio_quiet s p Ev.timeout (by simp)
      rcases h with h | h
      · rw [hq.1] at h
        exact absurd h (by simp)
      · exact absurd hq.2 h
  | io tty child =>
      rcases wrapIter_io_shape s p tty child with ⟨_, hcr, htt, _⟩ | ⟨s1, tc, cr, heq, _, _⟩
      · rcases h with h | h
        · rw [hcr] at h
          exact absurd h (by simp)
        · exact absurd htt h
      · rw [heq] at h ⊢
        rw [wrapIterChildPart_txok]
        exact wrapIterChildPart_gate s1 tc cr h
  | intr e =>
      have hq := wrapIter_nonio_quiet s p (Ev.intr e) (by simp)
      rcases h with h | h
      · rw [hq.1] at h
        exact absurd h (by simp)
      · exact absurd hq.2 h
  | pollFail =>
      have hq := wrapIter_nonio_quiet s p Ev.pollFail (by simp)
      rcases h with h | h
      · rw [hq.1] at h
        exact absurd h (by simp)
      · exact absurd hq.2 h

/- Contrapositive of the gate: an iteration that leaves the transmit flag
   false read nothing from the child PTY and wrote nothing to the TTY. -/
theorem wrapIter_post_txoff (s : MState) (p : device_state_et × List Nat)
    (ev : Ev) (h : (wrapIter s p ev).1.txok = false) :
    (wrapIter s p ev).2.childRead = false ∧ (wrapIter s p ev).2.toTty = [] := by
  constructor
  · by_contra hc
    rw [Bool.not_eq_false] at hc
    rw [wrapIter_gate s p ev (Or.inl hc)] at h
    exact absurd h (by simp)
  · by_contra ht
    rw [wrapIter_gate s p ev (Or.inr ht)] at h
    exact absurd h (by simp)

/- A valid run started with disarmed timeouts never times out, so it sends
   no SIGHUP at all. -/
theorem validRun_disarmed_no_sighup (steps : List ((device_state_et × List Nat) × Ev)) :
    ∀ s, ValidRun s steps → hupDisarmed s →
      sighupCount ((wrapTrace s steps).map (fun x => x.2)) = 0 := by
  induction steps with
  | nil => intro s _ _; rfl
  | cons pe rest ih =>
      intro s hvr hd
      obtain ⟨p, ev⟩ := pe
      cases hvr with
      | cons _ _ _ _ hev hrest =>
          have hevne : ev ≠ Ev.timeout := by
            intro he
            have h0 := hev he
            rw [clampPoll_neg hd.1] at h0
            have h2 := hd.2
            omega
          have hsh : (wrapIter s p ev).2.sighup = false := by
            cases ev with
            | timeout => exact absurd rfl hevne
            | io tty child => exact wrapIter_io_sighup s p tty child
            | intr e => exact wrapIter_intr_sighup s p e
            | pollFail => exact wrapIter_pollFail_sighup s p
          have hd2 := wrapIter_disarm_preserved s p ev hd hevne
          simp only [wrapTrace]
          by_cases hbrk : (wrapIter s p ev).2.brk = true
          · rw [if_pos hbrk]
            simp [sighupCount, hsh]
          · rw [if_neg hbrk]
            simp only [List.map_cons]
            rw [sighupCount_cons, ih _ hrest hd2]
            simp [hsh]

/- Over any valid run, SIGHUP is sent at most once: the first offline
   classification disarms the timeouts, and a disarmed run cannot time out
   again. -/
theorem validRun_sighup_le_one (steps : List ((device_state_et × List Nat) × Ev)) :
    ∀ s, ValidRun s steps →
      sighupCount ((wrapTrace s steps).map (fun x => x.2)) ≤ 1 := by
  induction steps with
  | nil => intro s _; simp [wrapTrace, sighupCount]
  | cons pe rest ih =>
      intro s hvr
      obtain ⟨p, ev⟩ := pe
      cases hvr with
      | cons _ _ _ _ hev hrest =>
          simp only [wrapTrace]
          by_cases hbrk : (wrapIter s p ev).2.brk = true
          · rw [if_pos hbrk]
            by_cases hsh : (wrapIter s p ev).2.sighup = true <;>
              simp [sighupCount, hsh]
          · rw [if_neg hbrk]
            simp only [List.map_cons]
            rw [sighupCount_cons]
            by_cases hsh : (wrapIter s p ev).2.sighup = true
            · have hevt := wrapIter_sighup_timeout s p ev hsh
              subst hevt
              have hd := wrapIter_timeout_disarm s p hsh
              rw [validRun_disarmed_no_sighup rest _ hrest hd]
              simp [hsh]
            · have hle := ih _ hrest
              rw [if_neg hsh]
              omega

/-- C4: whenever tx_enabled is false the mediator polls a single
descriptor, the TTY, so a later XON can still be received; the child PTY
is read and child bytes are written to the TTY only under a gate that sees
tx_enabled true, the value the iteration also leaves behind, so no read or
write ever happens while tx_enabled is false: every iteration that leaves
tx_enabled false read nothing from the child PTY and wrote nothing to the
TTY, and along any run every iteration of a window throughout which
tx_enabled stays false contributes zero bytes to the TTY. The only child
write an XON can unlock, including one flushing a stale child readiness
carried over from an earlier iteration, happens after tx_enabled has
become true again, outside the window: the final conjunct exhibits that
path of the source (stale pfds[1].revents surviving a txok-false poll)
and shows the backlog is written only once the XON has set the flag. -/
theorem C4_txoff_gating (s : MState) (hs : s.txok = false) :
    polledFds s = 1
    ∧ (∀ p ev, ((wrapIter s p ev).2.childRead = true
          ∨ (wrapIter s p ev).2.toTty ≠ []) →
        (wrapIter s p ev).1.txok = true)
    ∧ (∀ p ev, (wrapIter s p ev).1.txok = false →
        (wrapIter s p ev).2.childRead = false ∧ (wrapIter s p ev).2.toTty = [])
    ∧ (∀ s0 steps, ∀ x ∈ wrapStepsFull s0 steps, x.2.1.txok = false →
        x.2.2.childRead = false ∧ x.2.2.toTty = [])
    ∧ ((wrapIter { txok := false, timeout := 10, polltimeoutms := 10000, childRevents := some (ChildIn.bytes [65, 66]) }
          (device_state_et.DEVICE_ONLINE, [])
          (Ev.io (some (TtyIn.bytes [XON] true)) none)).2.toTty = [65, 66]
        ∧ (wrapIter { txok := false, timeout := 10, polltimeoutms := 10000, childRevents := some (ChildIn.bytes [65, 66]) }
            (device_state_et.DEVICE_ONLINE, [])
            (Ev.io (some (TtyIn.bytes [XON] true)) none)).1.txok = true) := by
  refine ⟨by simp [polledFds, hs], fun p ev => wrapIter_gate s p ev,
    fun p ev => wrapIter_post_txoff s p ev, ?_, by
      norm_num [wrapIter, wrapIterChildPart, clampPoll, flow_control_preprocessor,
        XON, XOFF, noEv]
      decide⟩
  intro s0 steps
  induction steps generalizing s0 with
  | nil => intro x hx; simp [wrapStepsFull] at hx
  | cons pe rest ih =>
      intro x hx hfalse
      obtain ⟨p, ev⟩ := pe
      simp only [wrapStepsFull] at hx
      by_cases hbrk : (wrapIter s0 p ev).2.brk = true
      · rw [if_pos hbrk] at hx
        simp only [List.mem_singleton] at hx
        subst hx
        exact wrapIter_post_txoff s0 p ev hfalse
      · rw [if_neg hbrk] at hx
        rcases List.mem_cons.mp hx with hx | hx
        · subst hx
          exact wrapIter_post_txoff s0 p ev hfalse
        · exact ih _ x hx hfalse

theorem C4_txoff_gating_witness :
    polledFds { txok := false, timeout := 10, polltimeoutms := 10000, childRevents := none } = 1
    ∧ (wrapIter { txok := false, timeout := 10, polltimeoutms := 10000, childRevents := none }
        (device_state_et.DEVICE_ONLINE, [72]) Ev.timeout).2.childRead = false
    ∧ (wrapIter { txok := false, timeout := 10, polltimeoutms := 10000, childRevents := none }
        (device_state_et.DEVICE_ONLINE, [72]) Ev.timeout).2.toTty = [] :=
  ⟨(C4_txoff_gating _ rfl).1,
   ((C4_txoff_gating _ rfl).2.2.1 (device_state_et.DEVICE_ONLINE, [72]) Ev.timeout
      (by norm_num [wrapIter, clampPoll])).1,
   ((C4_txoff_gating _ rfl).2.2.1 (device_state_et.DEVICE_ONLINE, [72]) Ev.timeout
      (by norm_num [wrapIter, clampPoll])).2⟩

/-- C5: starting from the initial mediator state with any activity timeout
of at least one second, every valid run delivers SIGHUP to the child at
most once, because the first DEVICE_OFFLINE classification sends SIGHUP
while setting the timeout and the poll timeout to minus one, after which no
iteration can time out again; and every offline-classified timeout both
sends SIGHUP and disarms the timeouts. -/
theorem C5_single_hangup (t : ℚ) (ht : 1 ≤ t)
    (steps : List ((device_state_et × List Nat) × Ev))
    (h : ValidRun (initState t) steps) :
    sighupCount ((wrapTrace (initState t) steps).map (fun x => x.2)) ≤ 1
    ∧ (∀ s p, p.1 = device_state_et.DEVICE_OFFLINE →
        (wrapIter s p Ev.timeout).2.sighup = true
        ∧ hupDisarmed (wrapIter s p Ev.timeout).1) :=
  ⟨validRun_sighup_le_one steps (initState t) h,
   fun s p hp => wrapIter_offline_sighup s p hp⟩

theorem C5_single_hangup_witness :
    sighupCount ((wrapTrace (initState 1)
        [((device_state_et.DEVICE_OFFLINE, []), Ev.timeout)]).map (fun x => x.2)) ≤ 1
    ∧ (wrapIter (initState 1) (device_state_et.DEVICE_OFFLINE, [])
        Ev.timeout).2.sighup = true
    ∧ hupDisarmed (wrapIter (initState 1) (device_state_et.DEVICE_OFFLINE, [])
        Ev.timeout).1 :=
  have hv : ValidRun (initState 1) [((device_state_et.DEVICE_OFFLINE, []), Ev.timeout)] :=
    ValidRun.cons _ _ _ _
      (fun _ => by
        have h1 : (0:ℚ) ≤ (initState 1).timeout := by norm_num [initState]
        simp only [clampPoll]
        rw [if_pos h1]
        exact le_max_right _ _)
      (ValidRun.nil _)
  ⟨(C5_single_hangup 1 (by norm_num) _ hv).1,
   ((C5_single_hangup 1 (by norm_num) _ hv).2 (initState 1)
      (device_state_et.DEVICE_OFFLINE, []) rfl).1,
   ((C5_single_hangup 1 (by norm_num) _ hv).2 (initState 1)
      (device_state_et.DEVICE_OFFLINE, []) rfl).2⟩

/-- C6: the claim fails on the code. After a signal interrupts the wait,
wrap subtracts 1000 * (int)(elapsed seconds) from polltimeoutms
(src/hupmon.c line 590): the cast truncates the elapsed seconds before the
scaling to milliseconds, so any interruption shorter than one second
subtracts zero. A signal 300 ms into a 1 s wait leaves the next wait at the
full 1000 ms instead of the remaining 700 ms the claim expects. -/
theorem C6_signal_slack_lost :
    (wrapIter (initState 1) (device_state_et.DEVICE_OFFLINE, [])
        (Ev.intr (3/10))).1.polltimeoutms = 1000
    ∧ ctrunc (3/10) = 0
    ∧ (initState 1).polltimeoutms = 1000 := by
  refine ⟨?_, by norm_num [ctrunc], by norm_num [initState, ctrunc]⟩
  norm_num [wrapIter, clampPoll, initState, ctrunc]

/-- C7: when the activity timeout expires while tx_enabled is false, the
iteration is independent of the prober (no probe runs and no CPR request
is written to the TTY), the state is classified offline directly, SIGHUP is
sent to the child and the timeouts are disarmed. -/
theorem C7_txoff_timeout_offline (s : MState) (hs : s.txok = false)
    (p paux : device_state_et × List Nat) :
    wrapIter s p Ev.timeout = wrapIter s paux Ev.timeout
    ∧ (wrapIter s p Ev.timeout).2.probed = false
    ∧ (wrapIter s p Ev.timeout).2.sighup = true
    ∧ (wrapIter s p Ev.timeout).2.toChild = []
    ∧ (wrapIter s p Ev.timeout).2.toTty = []
    ∧ hupDisarmed (wrapIter s p Ev.timeout).1 := by
  have hstep : ∀ pr : device_state_et × List Nat, wrapIter s pr Ev.timeout
      = ({ clampPoll s with timeout := -1, polltimeoutms := -1 },
         { toChild := [], toTty := [], sighup := true, probed := false,
           childRead := false, brk := false }) := by
    intro pr
    simp [wrapIter, clampPoll_txok, hs]
  rw [hstep p, hstep paux]
  exact ⟨rfl, rfl, rfl, rfl, rfl, by norm_num, by norm_num⟩

theorem C7_txoff_timeout_offline_witness :
    (wrapIter { txok := false, timeout := 10, polltimeoutms := 10000, childRevents := none }
        (device_state_et.DEVICE_ONLINE, [72]) Ev.timeout).2.probed = false
    ∧ (wrapIter { txok := false, timeout := 10, polltimeoutms := 10000, childRevents := none }
        (device_state_et.DEVICE_ONLINE, [72]) Ev.timeout).2.sighup = true
    ∧ hupDisarmed (wrapIter { txok := false, timeout := 10, polltimeoutms := 10000, childRevents := none }
        (device_state_et.DEVICE_ONLINE, [72]) Ev.timeout).1 :=
  ⟨(C7_txoff_timeout_offline _ rfl (device_state_et.DEVICE_ONLINE, [72])
      (device_state_et.DEVICE_OFFLINE, [])).2.1,
   (C7_txoff_timeout_offline _ rfl (device_state_et.DEVICE_ONLINE, [72])
      (device_state_et.DEVICE_OFFLINE, [])).2.2.1,
   (C7_txoff_timeout_offline _ rfl (device_state_et.DEVICE_ONLINE, [72])
      (device_state_et.DEVICE_OFFLINE, [])).2.2.2.2.2⟩
